import Mathlib

/-!
Shallow embedding of the roadmap dashboard's core pipeline (`src/app.py`):
the record loader, the filter engine and the aggregator, together with
proofs settling the specification claims.

Strings from the Python side are modelled as `List Char` (ASCII contents);
pandas/NumPy missing values (`NaN`/`NaT`) are modelled with `Option`;
Python exceptions raised during loading are modelled with `Except PyErr`.
-/

namespace Roadmap

/-! ### Python string primitives (ASCII model) -/

/-- Python whitespace characters recognised by `str.strip` (ASCII subset). -/
def isSpc (c : Char) : Bool :=
  c = ' ' || c = '\t' || c = '\n' || c = '\r' || c = '\x0b' || c = '\x0c'

/-- Python `str.strip()`: drop whitespace from both ends. -/
def stripChars (s : List Char) : List Char :=
  ((s.dropWhile isSpc).reverse.dropWhile isSpc).reverse

/-- Python `str.split(sep)` for a one-character separator: splitting a
string (even the empty one) always yields at least one field. -/
def splitOnChar (sep : Char) : List Char → List (List Char)
  | [] => [[]]
  | c :: rest =>
    match splitOnChar sep rest with
    | [] => [[]]
    | f :: fs => if c = sep then [] :: f :: fs else (c :: f) :: fs

/-- Python `sub in s`: does `sub` occur as a contiguous subsequence of `s`? -/
def containsSeq (sub s : List Char) : Bool :=
  s.tails.any (fun t => sub.isPrefixOf t)

/-- Fuel-driven worker for `removeAll`; the fuel only serves structural
recursion and `removeAll` always supplies enough of it (each step consumes
at least one character of the input). -/
def removeAllAux (pat : List Char) : Nat → List Char → List Char
  | _, [] => []
  | 0, s => s
  | fuel + 1, c :: rest =>
    if pat ≠ [] ∧ pat.isPrefixOf (c :: rest) then
      removeAllAux pat fuel ((c :: rest).drop pat.length)
    else
      c :: removeAllAux pat fuel rest

/-- Python `s.replace(pat, "")` for a non-empty `pat`: remove every
occurrence of `pat`, scanning left to right, non-overlapping. -/
def removeAll (pat s : List Char) : List Char :=
  removeAllAux pat s.length s

/-- ASCII decimal digit test (model of Python `str.isdigit` on ASCII input). -/
def isAsciiDigit (c : Char) : Bool :=
  48 ≤ c.toNat && c.toNat ≤ 57

/-- Numeric value of a big-endian list of digit characters. -/
def digitsVal (s : List Char) : Nat :=
  s.foldl (fun acc c => 10 * acc + (c.toNat - 48)) 0

/-- Parse a non-empty all-digit string as a natural number. -/
def parseNatDigits (s : List Char) : Option Nat :=
  if s ≠ [] ∧ s.all isAsciiDigit then some (digitsVal s) else none

/-- Python `int(s)` on an ASCII string: strip whitespace, optional sign,
then a non-empty run of decimal digits; anything else raises, modelled as
`none`.  (Digit grouping with `_` and non-ASCII digits are not modelled.) -/
def pyParseIntCore : List Char → Option Int
  | [] => none
  | c :: rest =>
    if c = '-' then (parseNatDigits rest).map (fun k => -(Int.ofNat k))
    else if c = '+' then (parseNatDigits rest).map (fun k => Int.ofNat k)
    else (parseNatDigits (c :: rest)).map (fun k => Int.ofNat k)

def pyParseInt (s : List Char) : Option Int :=
  pyParseIntCore (stripChars s)

/-- The character for a single decimal digit. -/
def digitChar (d : Nat) : Char :=
  Char.ofNat (48 + d)

/-- Fuel-driven base-10 digit extraction, big-endian; the fuel only serves
structural recursion and `natDigitsBE` always supplies enough of it. -/
def natToDigitsAux : Nat → Nat → List Nat
  | 0, _ => []
  | fuel + 1, n => if n = 0 then [] else natToDigitsAux fuel (n / 10) ++ [n % 10]

/-- Base-10 digits of `n`, big-endian (empty for `0`). -/
def natDigitsBE (n : Nat) : List Nat :=
  natToDigitsAux n n

/-- Decimal rendering of a natural number (big-endian), as Python `str`. -/
def natRepr (n : Nat) : List Char :=
  if n = 0 then ['0'] else (natDigitsBE n).map digitChar

/-- Decimal rendering of an integer, as Python `str` / f-string formatting. -/
def pyIntRepr (n : Int) : List Char :=
  if n < 0 then '-' :: natRepr n.natAbs else natRepr n.natAbs

/-- Numeric value of a big-endian list of base-10 digits. -/
def digitsValN (l : List Nat) : Nat :=
  l.foldl (fun a d => 10 * a + d) 0

/-- Generic decidable membership used to model pandas `Series.isin` and
Python `in` on lists. -/
def isin {α : Type} [DecidableEq α] (v : α) (l : List α) : Bool :=
  l.any (fun x => decide (x = v))

/-- pandas `Series.unique`: keep the first occurrence of each value. -/
def dedupFirstAux {α : Type} [DecidableEq α] (seen : List α) : List α → List α
  | [] => []
  | x :: xs =>
    if isin x seen then dedupFirstAux seen xs
    else x :: dedupFirstAux (x :: seen) xs

/-- pandas `Series.unique`: keep the first occurrence of each value. -/
def dedupFirst {α : Type} [DecidableEq α] (l : List α) : List α :=
  dedupFirstAux [] l

/-- Insert into a sorted list, before the first element not below `x`
(stable insertion: an element inserted later among equals goes first,
so folding from the right preserves the original order of equals). -/
def sortedInsert {α : Type} (le : α → α → Bool) (x : α) : List α → List α
  | [] => [x]
  | y :: ys => if le x y then x :: y :: ys else y :: sortedInsert le x ys

/-- Stable ascending insertion sort (models NumPy's stable argsort as pandas
uses it on the small frames at hand). -/
def insSort {α : Type} (le : α → α → Bool) : List α → List α
  | [] => []
  | x :: xs => sortedInsert le x (insSort le xs)

/-! ### String constants -/

/-- The string `"nan"`, which pandas `astype(str)` produces for `NaN` cells. -/
def nanS : List Char := "nan".toList

/-- The default status string. -/
def ongoingS : List Char := "Ongoing".toList

/-- The pattern `"Group "` used by the label round-trip. -/
def groupSpaceS : List Char := "Group ".toList

/-! ### Data model

A `RawRow` is one spreadsheet row as `pd.read_excel` delivers it (after the
column names have been cleaned): text cells are `Option (List Char)` with
`none` for an empty (`NaN`) cell; the start date is already parsed to a
`(year, month)` pair with `none` for `NaT` (date parsing itself,
`pd.to_datetime(..., dayfirst=True, errors="coerce")`, is outside every
claim and is represented by the `Option`).  A `Row` is one record of the
loaded canonical table; a missing column leaves the corresponding field at
its default, and the table-level `has…` flags record which columns exist. -/

inductive PyErr where
  /-- `ValueError` raised by `int(float(tok))` on a malformed float token. -/
  | valueErrorFloat : PyErr
  /-- `ValueError` raised by assigning a length-0 list to a column of a
  non-empty frame (`df["group_list"] = []`). -/
  | valueErrorLength : PyErr
deriving DecidableEq, Repr

instance {ε α : Type} [DecidableEq ε] [DecidableEq α] :
    DecidableEq (Except ε α) := fun a b =>
  match a, b with
  | .error e, .error e' =>
    if h : e = e' then .isTrue (by rw [h]) else .isFalse (by simp [h])
  | .error _, .ok _ => .isFalse (by simp)
  | .ok _, .error _ => .isFalse (by simp)
  | .ok x, .ok y =>
    if h : x = y then .isTrue (by rw [h]) else .isFalse (by simp [h])

structure RawRow where
  status : Option (List Char)
  department : Option (List Char)
  person : Option (List Char)
  group : Option (List Char)
  start : Option (Int × Nat)
  time : Option Rat
deriving DecidableEq, Repr

structure RawTable where
  hasStatus : Bool
  hasDept : Bool
  hasPerson : Bool
  hasGroup : Bool
  hasStart : Bool
  hasTime : Bool
  rows : List RawRow
deriving DecidableEq, Repr

structure Row where
  status : List Char
  department : List Char
  person : List Char
  year : Option Int
  month : Option (List Char)
  month_num : Option Int
  group_list : List Int
  time : Option Rat
deriving DecidableEq, Repr

structure Table where
  hasStatus : Bool
  hasYear : Bool
  hasMonth : Bool
  hasDept : Bool
  hasPerson : Bool
  hasGroupList : Bool
  hasTime : Bool
  rows : List Row
deriving DecidableEq, Repr

/-! ### Record loader (`load_data` in `src/app.py`) -/

/-- Effectful list map over `Except`, stopping at the first raised error
(a Python exception aborts the whole load). -/
def mapE {α β : Type} (f : α → Except PyErr β) : List α → Except PyErr (List β)
  | [] => .ok []
  | x :: xs =>
    match f x with
    | .error e => .error e
    | .ok y =>
      match mapE f xs with
      | .error e => .error e
      | .ok ys => .ok (y :: ys)

/-- Status cleanup: `fillna("Ongoing")`, then `astype(str).str.strip()`,
then `replace("nan", "Ongoing")` (pandas `replace` on a string is a
whole-cell match). -/
def loadStatus (raw : Option (List Char)) : List Char :=
  let s := stripChars (raw.getD ongoingS)
  if s = nanS then ongoingS else s

/-- Other text columns: `astype(str).str.strip()` only (a `NaN` cell
stringifies to `"nan"`). -/
def loadText (raw : Option (List Char)) : List Char :=
  stripChars (raw.getD nanS)

/-- One token of the `group` cell, from the comprehension
`[int(float(i)) for i in x if i.strip().replace(".", "").isdigit()]`:
`ok none` = token dropped by the guard, `ok (some n)` = token kept with
value `int(float(i))`, `error` = the guard passed but `float(i)` raised
(the guard removes *all* dots, so a token with two dots slips through). -/
def parseGroupToken (tok : List Char) : Except PyErr (Option Int) :=
  let s := stripChars tok
  let noDots := s.filter (fun c => decide (c ≠ '.'))
  if noDots ≠ [] ∧ noDots.all isAsciiDigit then
    if s.count '.' ≤ 1 then
      .ok (some ((digitsVal (s.takeWhile (fun c => decide (c ≠ '.')))) : Int))
    else
      .error .valueErrorFloat
  else
    .ok none

/-- Run `parseGroupToken` over the `;`-split tokens, keeping the accepted
values in order and propagating the first raised error. -/
def collectTokens : List (List Char) → Except PyErr (List Int)
  | [] => .ok []
  | t :: ts =>
    match parseGroupToken t with
    | .error e => .error e
    | .ok none => collectTokens ts
    | .ok (some n) =>
      match collectTokens ts with
      | .error e => .error e
      | .ok rest => .ok (n :: rest)

/-- `group_list` for one cell: `astype(str).str.split(";")` then the
comprehension above. -/
def parseGroupList (cell : Option (List Char)) : Except PyErr (List Int) :=
  collectTokens (splitOnChar ';' (cell.getD nanS))

/-- `Series.dt.month_name()` for months 1–12. -/
def monthName (m : Nat) : List Char :=
  (["January", "February", "March", "April", "May", "June", "July",
    "August", "September", "October", "November", "December"].map
    String.toList).getD (m - 1) []

/-- Assemble one loaded record (all columns except `group_list`, which is
fallible and supplied separately). -/
def loadRowPure (rt : RawTable) (rr : RawRow) (gl : List Int) : Row where
  status := if rt.hasStatus then loadStatus rr.status else []
  department := if rt.hasDept then loadText rr.department else []
  person := if rt.hasPerson then loadText rr.person else []
  year := if rt.hasStart then rr.start.map (fun p => p.1) else none
  month := if rt.hasStart then rr.start.map (fun p => monthName p.2) else none
  month_num := if rt.hasStart then rr.start.map (fun p => (p.2 : Int)) else none
  group_list := gl
  time := if rt.hasTime then rr.time else none

/-- The loader `load_data`: clean the `status` column, strip the text
columns, derive `group_list` from the `group` column (when the column is
absent the script runs `df["group_list"] = []`, which pandas rejects with a
length-mismatch `ValueError` whenever the frame is non-empty), and derive
`Year` / `Month` / `month_num` from the start date. -/
def load_data (rt : RawTable) : Except PyErr Table :=
  match mapE
      (fun rr =>
        if rt.hasGroup then
          match parseGroupList rr.group with
          | .error e => .error e
          | .ok gl => .ok (loadRowPure rt rr gl)
        else
          .ok (loadRowPure rt rr []))
      rt.rows with
  | .error e => .error e
  | .ok rows =>
    if rt.hasGroup = false ∧ rt.rows ≠ [] then
      .error .valueErrorLength
    else
      .ok
        { hasStatus := rt.hasStatus
          hasYear := rt.hasStart
          hasMonth := rt.hasStart
          hasDept := rt.hasDept
          hasPerson := rt.hasPerson
          hasGroupList := true
          hasTime := rt.hasTime
          rows := rows }

/-! ### Group-name ↔ id mapping and the sidebar's label→id translation -/

/-- The static `GROUP_MAPPING` dictionary (insertion order preserved). -/
def GROUP_MAPPING : List (Int × List Char) :=
  [(0, "0 - Formalize a Roadmap (Soft skills)".toList),
   (1, "1 - Develop Internal Capacity (Contribution to LISER)".toList),
   (2, "2 - Advise Data Science Solutions (Technical Excellence)".toList),
   (3, "3 - Publish Research in AI (Scientific Excellence)".toList),
   (4, "4 - Foster Strategic Collaborations (Societal Impact)".toList)]

/-- `GROUP_MAPPING.get(gid, f"Group {gid}")`. -/
def mappingGet (gid : Int) : List Char :=
  match GROUP_MAPPING.lookup gid with
  | some l => l
  | none => groupSpaceS ++ pyIntRepr gid

/-- The ids one selected label contributes: all dictionary entries whose
label equals the name, then — when `"Group "` occurs in the name — the
result of `int(name.replace("Group ", ""))`, with a raising `int` swallowed
by the bare `except`. -/
def idsOfName (name : List Char) : List Int :=
  ((GROUP_MAPPING.filter (fun p => decide (p.2 = name))).map (fun p => p.1)) ++
    (if containsSeq groupSpaceS name then
      match pyParseInt (removeAll groupSpaceS name) with
      | some n => [n]
      | none => []
    else [])

/-- `selected_group_ids`: the loop over `selected_group_names` appends the
contributions of each selected label in order. -/
def selected_group_ids : List (List Char) → List Int
  | [] => []
  | name :: names => idsOfName name ++ selected_group_ids names

/-! ### Filter engine (`df_filtered` in `src/app.py`) -/

/-- The six per-dimension selections built in the sidebar. -/
structure Criteria where
  statuses : List (List Char)
  years : List Int
  months : List (List Char)
  depts : List (List Char)
  persons : List (List Char)
  groupIds : List Int
deriving DecidableEq, Repr

/-- `has_overlap`: `any(gid in selected_group_ids for gid in row_groups)`. -/
def has_overlap (sel : List Int) (row_groups : List Int) : Bool :=
  row_groups.any (fun gid => isin gid sel)

/-- `Series.isin` against an `Option`-valued column: a null cell matches
nothing (the selection lists carry no nulls). -/
def optIsin {α : Type} [DecidableEq α] (v : Option α) (l : List α) : Bool :=
  match v with
  | some x => isin x l
  | none => false

/-- One guarded filter step: `if <column present> and <selection non-empty>:
df_filtered = df_filtered[...]`. -/
def applyIf (active : Bool) (p : Row → Bool) (rows : List Row) : List Row :=
  if active then rows.filter p else rows

/-- The filter stage: the six guarded `isin` / overlap filters applied in
source order (status, Year, Month, department, person, group). -/
def df_filtered (t : Table) (c : Criteria) : Table :=
  let rows := t.rows
  let rows := applyIf (t.hasStatus && !c.statuses.isEmpty)
    (fun r => isin r.status c.statuses) rows
  let rows := applyIf (t.hasYear && !c.years.isEmpty)
    (fun r => optIsin r.year c.years) rows
  let rows := applyIf (t.hasMonth && !c.months.isEmpty)
    (fun r => optIsin r.month c.months) rows
  let rows := applyIf (t.hasDept && !c.depts.isEmpty)
    (fun r => isin r.department c.depts) rows
  let rows := applyIf (t.hasPerson && !c.persons.isEmpty)
    (fun r => isin r.person c.persons) rows
  let rows := applyIf (t.hasGroupList && !c.groupIds.isEmpty)
    (fun r => has_overlap c.groupIds r.group_list) rows
  { t with rows := rows }

/-- The conjunction of the six guarded criteria, in the order the filters
are applied (an inactive dimension passes everything). -/
def passAll (t : Table) (c : Criteria) (r : Row) : Bool :=
  (!(t.hasStatus && !c.statuses.isEmpty) || isin r.status c.statuses) &&
  (!(t.hasYear && !c.years.isEmpty) || optIsin r.year c.years) &&
  (!(t.hasMonth && !c.months.isEmpty) || optIsin r.month c.months) &&
  (!(t.hasDept && !c.depts.isEmpty) || isin r.department c.depts) &&
  (!(t.hasPerson && !c.persons.isEmpty) || isin r.person c.persons) &&
  (!(t.hasGroupList && !c.groupIds.isEmpty) ||
    has_overlap c.groupIds r.group_list)

/-! ### Sidebar defaults (the pre-selected "all available values") -/

/-- `df["status"].unique().tolist()`. -/
def status_options (t : Table) : List (List Char) :=
  dedupFirst (t.rows.map Row.status)

/-- Comparison `a ≤ b` on `Int`, as a `Bool`. -/
def intLE (a b : Int) : Bool := decide (a ≤ b)

/-- `sorted([int(x) for x in df["Year"].dropna().unique()])`. -/
def selected_years_default (t : Table) : List Int :=
  insSort intLE (dedupFirst (t.rows.filterMap Row.year))

/-- Row order `a ≤ b` by `month_num`, nulls last (pandas
`sort_values("month_num")` with the default `na_position="last"`). -/
def monthNumLE (a b : Row) : Bool :=
  match a.month_num, b.month_num with
  | some x, some y => decide (x ≤ y)
  | some _, none => true
  | none, some _ => false
  | none, none => true

/-- `df.sort_values("month_num")["Month"].dropna().unique()`. -/
def selected_months_default (t : Table) : List (List Char) :=
  dedupFirst ((insSort monthNumLE t.rows).filterMap Row.month)

/-- `all_ids` accumulated over the `group_list` column, then `sorted(...)`
(a Python `set` iterated through `sorted` — modelled as the sorted
first-occurrence dedup of the concatenation). -/
def sorted_all_ids (t : Table) : List Int :=
  insSort intLE (dedupFirst (t.rows.map Row.group_list).flatten)

/-- `group_options = [GROUP_MAPPING.get(gid, f"Group {gid}") for gid in
sorted(all_ids)]`. -/
def group_options (t : Table) : List (List Char) :=
  (sorted_all_ids t).map mappingGet

/-- `df["department"].unique().tolist()`. -/
def dept_options (t : Table) : List (List Char) :=
  dedupFirst (t.rows.map Row.department)

/-- `df["person"].unique().tolist()`. -/
def person_options (t : Table) : List (List Char) :=
  dedupFirst (t.rows.map Row.person)

/-- The default criteria: every multiselect pre-selects all of its
available options; a dimension whose backing column is absent selects `[]`
(the `else` branches of the sidebar). -/
def defaultCriteria (t : Table) : Criteria where
  statuses := if t.hasStatus then status_options t else []
  years := if t.hasYear then selected_years_default t else []
  months := if t.hasMonth then selected_months_default t else []
  depts := if t.hasDept then dept_options t else []
  persons := if t.hasPerson then person_options t else []
  groupIds :=
    if t.hasGroupList then selected_group_ids (group_options t) else []

/-! ### Aggregator -/

/-- `df_filtered["time"].sum()`: pandas skips null cells. -/
def sumTimes (rows : List Row) : Rat :=
  (rows.filterMap Row.time).foldl (fun a b => a + b) 0

/-- `total_hours = df_filtered["time"].sum()`. -/
def total_hours (t : Table) : Rat :=
  sumTimes t.rows

/-- `df_filtered["time"].mean()`: pandas averages the non-null cells and
yields `NaN` (here `none`) when there are none. -/
def meanTimes (rows : List Row) : Option Rat :=
  let vs := rows.filterMap Row.time
  if vs.isEmpty then none
  else some ((vs.foldl (fun a b => a + b) 0) / (vs.length : Rat))

/-- `avg_hours = df_filtered["time"].mean() if not df_filtered.empty else 0`. -/
def avg_hours (t : Table) : Option Rat :=
  if t.rows.isEmpty then some 0 else meanTimes t.rows

/-- Code-point order `a ≤ b` on strings (Python string comparison). -/
def lexLE : List Char → List Char → Bool
  | [], _ => true
  | _ :: _, [] => false
  | x :: xs, y :: ys =>
    if x.toNat < y.toNat then true
    else if x.toNat = y.toNat then lexLE xs ys
    else false

/-- `df_filtered.groupby("department")["time"].sum().reset_index()`:
`groupby` sorts the keys ascending; each key gets the null-skipping sum of
its group's `time` values. -/
def df_dept (t : Table) : List (List Char × Rat) :=
  (insSort lexLE (dedupFirst (t.rows.map Row.department))).map
    (fun d => (d, sumTimes (t.rows.filter (fun r => decide (r.department = d)))))

/-- Lexicographic `a ≤ b` on (person, department) keys. -/
def pairLE (a b : List Char × List Char) : Bool :=
  if a.1 = b.1 then lexLE a.2 b.2 else lexLE a.1 b.1

/-- `df_filtered.groupby(["person", "department"])["time"].sum()
.reset_index()`: keys sorted ascending, null-skipping sums. -/
def groupPersonDept (t : Table) : List ((List Char × List Char) × Rat) :=
  (insSort pairLE (dedupFirst (t.rows.map (fun r => (r.person, r.department))))).map
    (fun k =>
      (k, sumTimes (t.rows.filter
        (fun r => decide ((r.person, r.department) = k)))))

/-- Entry order `a ≤ b` by summed time. -/
def timeLE (a b : (List Char × List Char) × Rat) : Bool :=
  decide (a.2 ≤ b.2)

/-- `df_person = ....sort_values(by="time", ascending=False)`: pandas
`nargsort` argsorts ascending with the default `kind="quicksort"` — an
*unstable* introsort whose tie order is unspecified — and reverses the
whole indexer for `ascending=False`.  This executable model instantiates
the unspecified tie order with the behaviour NumPy exhibits below its
introsort insertion-sort cutoff (a stable ascending pass), which covers
the concrete two-group frames evaluated here; properties meant to hold
for *every* run of the program are stated against
`sortValuesDescOutcome` below, which admits any correct (possibly
unstable) ascending argsort. -/
def df_person (t : Table) : List ((List Char × List Char) × Rat) :=
  (insSort timeLE (groupPersonDept t)).reverse

/-- The full contract of `sort_values(by="time", ascending=False)` with an
unstable `kind`: the output is the reversal of *some* permutation of the
input that is sorted ascending by the key — nothing more is guaranteed
about the order of ties. -/
def sortValuesDescOutcome
    (l out : List ((List Char × List Char) × Rat)) : Prop :=
  ∃ asc : List ((List Char × List Char) × Rat),
    asc.Perm l ∧ asc.Pairwise (fun a b => a.2 ≤ b.2) ∧ out = asc.reverse

/-! ### Known labels

A label that "matches a known id" is one that the static mapping (or the
generic `f"Group {gid}"` fallback) can actually produce, i.e. a label in
the image of `mappingGet`; `isKnownLabel` decides this (proved sound and
complete below). -/

def isKnownLabel (name : List Char) : Bool :=
  isin name (GROUP_MAPPING.map (fun p => p.2)) ||
    (match pyParseInt (removeAll groupSpaceS name) with
     | some n => decide (name = mappingGet n)
     | none => false)

/-! ### Concrete scenario data -/

/-- The all-empty criteria (every filter inactive). -/
def emptyCriteria : Criteria :=
  { statuses := [], years := [], months := [], depts := [], persons := [],
    groupIds := [] }

/-- A raw spreadsheet row with every cell empty. -/
def rrNone : RawRow :=
  { status := none, department := none, person := none, group := none,
    start := none, time := none }

/- C1: a loaded table with one dated and one undated record. -/

def rrC1a : RawRow :=
  { rrNone with group := some ("0".toList), start := some (2024, 1) }

def rrC1b : RawRow :=
  { rrC1a with start := none }

def rawC1 : RawTable :=
  { hasStatus := false, hasDept := false, hasPerson := false,
    hasGroup := true, hasStart := true, hasTime := false,
    rows := [rrC1a, rrC1b] }

def rC1a : Row :=
  { status := [], department := [], person := [], year := some 2024,
    month := some ("January".toList), month_num := some 1,
    group_list := [0], time := none }

def rC1b : Row :=
  { rC1a with year := none, month := none, month_num := none }

def tC1 : Table :=
  { hasStatus := false, hasYear := true, hasMonth := true, hasDept := false,
    hasPerson := false, hasGroupList := true, hasTime := false,
    rows := [rC1a, rC1b] }

/- C1 witness: a fully populated single-record table. -/

def rW : Row :=
  { status := "Ongoing".toList, department := "D".toList,
    person := "P".toList, year := some 2024,
    month := some ("January".toList), month_num := some 1,
    group_list := [0], time := some 1 }

def tW : Table :=
  { hasStatus := true, hasYear := true, hasMonth := true, hasDept := true,
    hasPerson := true, hasGroupList := true, hasTime := true, rows := [rW] }

/- C2: tables without a `group` column. -/

def rawC2 : RawTable :=
  { hasStatus := false, hasDept := false, hasPerson := false,
    hasGroup := false, hasStart := false, hasTime := false,
    rows := [rrNone] }

def rawC2e : RawTable :=
  { rawC2 with rows := [] }

def tC2e : Table :=
  { hasStatus := false, hasYear := false, hasMonth := false,
    hasDept := false, hasPerson := false, hasGroupList := true,
    hasTime := false, rows := [] }

/- C3: group cells. -/

def gOkS : List Char := "1;2.0;x".toList

def gBadS : List Char := "1.2.3".toList

def rawC3 : RawTable :=
  { rawC2 with hasGroup := true, rows := [{ rrNone with group := some gBadS }] }

/- C4: the `group = "0;3"` scenario. -/

def grC4 : List Char := "0;3".toList

def row4 : Row :=
  { status := [], department := [], person := [], year := none,
    month := none, month_num := none, group_list := [0, 3], time := none }

def t4 : Table :=
  { hasStatus := false, hasYear := false, hasMonth := false,
    hasDept := false, hasPerson := false, hasGroupList := true,
    hasTime := false, rows := [row4] }

def c4incl : Criteria := { emptyCriteria with groupIds := [3] }

def c4excl : Criteria := { emptyCriteria with groupIds := [1, 2] }

/- C5: status cells that strip to empty / non-empty. -/

def rawC5 : RawTable :=
  { hasStatus := true, hasDept := false, hasPerson := false,
    hasGroup := true, hasStart := false, hasTime := false,
    rows := [{ rrNone with status := some ("   ".toList) }] }

def rC5 : Row :=
  { status := [], department := [], person := [], year := none,
    month := none, month_num := none, group_list := [], time := none }

def tC5 : Table :=
  { hasStatus := true, hasYear := false, hasMonth := false,
    hasDept := false, hasPerson := false, hasGroupList := true,
    hasTime := false, rows := [rC5] }

def rawC5w : RawTable :=
  { rawC5 with rows := [{ rrNone with status := some (" ok ".toList) }] }

def rC5w : Row := { rC5 with status := "ok".toList }

def tC5w : Table := { tC5 with rows := [rC5w] }

/- C6: two persons in one department with equal summed time. -/

def rowA : Row :=
  { status := [], department := "D".toList, person := "A".toList,
    year := none, month := none, month_num := none, group_list := [],
    time := some 5 }

def rowB : Row := { rowA with person := "B".toList }

def t6 : Table :=
  { hasStatus := false, hasYear := false, hasMonth := false,
    hasDept := true, hasPerson := true, hasGroupList := false,
    hasTime := true, rows := [rowA, rowB] }

/- C7: a label that is not in the image of the labelling but still
contributes an id. -/

def weirdLabel : List Char := "Group  9".toList

/- C8: departments ["A", "B", "A"] with time [10, 5, 7]. -/

def r8a : Row :=
  { status := [], department := "A".toList, person := [], year := none,
    month := none, month_num := none, group_list := [], time := some 10 }

def r8b : Row := { r8a with department := "B".toList, time := some 5 }

def r8c : Row := { r8a with time := some 7 }

def t8 : Table :=
  { hasStatus := false, hasYear := false, hasMonth := false,
    hasDept := true, hasPerson := false, hasGroupList := false,
    hasTime := true, rows := [r8a, r8b, r8c] }

def crit8 : Criteria := { emptyCriteria with depts := ["A".toList] }

/- C9: a criteria selection that empties the table. -/

def r9 : Row :=
  { status := "X".toList, department := [], person := [], year := none,
    month := none, month_num := none, group_list := [], time := none }

def t9 : Table :=
  { hasStatus := true, hasYear := false, hasMonth := false,
    hasDept := false, hasPerson := false, hasGroupList := false,
    hasTime := false, rows := [r9] }

def c9 : Criteria := { emptyCriteria with statuses := ["Y".toList] }

/- C10: one record with groups, one with an empty `group_list`. -/

def r10a : Row :=
  { status := [], department := [], person := [], year := none,
    month := none, month_num := none, group_list := [1], time := none }

def r10b : Row := { r10a with group_list := [] }

def t10 : Table :=
  { hasStatus := false, hasYear := false, hasMonth := false,
    hasDept := false, hasPerson := false, hasGroupList := true,
    hasTime := false, rows := [r10a, r10b] }

end Roadmap

namespace Roadmap

/-! ### Sanity examples for the string primitives (kept as compiled checks) -/

example : stripChars ("  ab ".toList) = "ab".toList := by decide

example : splitOnChar ';' ("1;2.0;x".toList) =
    ["1".toList, "2.0".toList, "x".toList] := by decide

example : removeAll ("Group ".toList) ("Group  9".toList) = " 9".toList := by
  decide

example : pyParseInt (" 9".toList) = some 9 := by decide

example : containsSeq ("Group ".toList) ("MyGroup 5x".toList) = true := by
  decide

example : containsSeq ("Group ".toList) ("Subgroup 5".toList) = false := by
  decide

example : parseGroupList (some ("1;2.0;x".toList)) = .ok [1, 2] := by decide

example : parseGroupList (some ("1.2.3".toList)) = .error .valueErrorFloat := by
  decide

example : parseGroupList (some ("0;3".toList)) = .ok [0, 3] := by decide

example : parseGroupList none = .ok [] := by decide

example : loadStatus (some ("   ".toList)) = [] := by decide

example : loadStatus (some (" nan ".toList)) = ongoingS := by decide

example : loadStatus none = ongoingS := by decide

example : selected_group_ids [mappingGet 3] = [3] := by decide

example : selected_group_ids [mappingGet 9] = [9] := by decide

example : selected_group_ids [("Group  9".toList)] = [9] := by decide

example : selected_group_ids [("bogus".toList)] = [] := by decide

end Roadmap

namespace Roadmap

/-! ### Helper lemmas: membership in the derived option lists -/

theorem isin_iff {α : Type} [DecidableEq α] (v : α) (l : List α) :
    isin v l = true ↔ v ∈ l := by
  simp [isin, List.any_eq_true]

theorem dedupFirstAux_mem {α : Type} [DecidableEq α] (x : α) :
    ∀ (l seen : List α), x ∈ dedupFirstAux seen l ↔ x ∈ l ∧ x ∉ seen := by
  intro l
  induction l with
  | nil => intro seen; simp [dedupFirstAux]
  | cons a as ih =>
    intro seen
    by_cases h : isin a seen = true
    · rw [dedupFirstAux, if_pos h, ih]
      have ha : a ∈ seen := (isin_iff a seen).mp h
      constructor
      · rintro ⟨h1, h2⟩; exact ⟨List.mem_cons_of_mem a h1, h2⟩
      · rintro ⟨h1, h2⟩
        rcases List.mem_cons.mp h1 with rfl | h1
        · exact absurd ha h2
        · exact ⟨h1, h2⟩
    · rw [dedupFirstAux, if_neg h]
      have ha : a ∉ seen := fun hmem => h ((isin_iff a seen).mpr hmem)
      constructor
      · intro hx
        rcases List.mem_cons.mp hx with rfl | hx
        · exact ⟨List.mem_cons_self x as, ha⟩
        · rcases (ih (a :: seen)).mp hx with ⟨h1, h2⟩
          refine ⟨List.mem_cons_of_mem a h1, fun hs => h2 ?_⟩
          exact List.mem_cons_of_mem a hs
      · rintro ⟨h1, h2⟩
        rcases List.mem_cons.mp h1 with rfl | h1
        · exact List.mem_cons_self x _
        · by_cases hxa : x = a
          · subst hxa; exact List.mem_cons_self x _
          · refine List.mem_cons_of_mem a ((ih (a :: seen)).mpr ⟨h1, ?_⟩)
            intro hs
            rcases List.mem_cons.mp hs with h' | h'
            · exact hxa h'
            · exact h2 h'

theorem dedupFirst_mem {α : Type} [DecidableEq α] (x : α) (l : List α) :
    x ∈ dedupFirst l ↔ x ∈ l := by
  rw [dedupFirst, dedupFirstAux_mem]
  simp

theorem sortedInsert_mem {α : Type} (le : α → α → Bool) (x y : α) :
    ∀ l, y ∈ sortedInsert le x l ↔ y = x ∨ y ∈ l := by
  intro l
  induction l with
  | nil => simp [sortedInsert]
  | cons a as ih =>
    rw [sortedInsert]
    by_cases h : le x a = true
    · simp [h, List.mem_cons]
    · simp only [h, if_neg, Bool.not_eq_true, List.mem_cons, ih]
      tauto

theorem insSort_mem {α : Type} (le : α → α → Bool) (y : α) :
    ∀ l, y ∈ insSort le l ↔ y ∈ l := by
  intro l
  induction l with
  | nil => simp [insSort]
  | cons a as ih =>
    rw [insSort, sortedInsert_mem, ih, List.mem_cons]

/-! ### Helper lemmas: sortedness and stability of the insertion sort -/

theorem sortedInsert_pairwise {α : Type} (le : α → α → Bool)
    (htot : ∀ a b, le a b = false → le b a = true)
    (htrans : ∀ a b c, le a b = true → le b c = true → le a c = true)
    (x : α) :
    ∀ l, l.Pairwise (fun a b => le a b = true) →
      (sortedInsert le x l).Pairwise (fun a b => le a b = true) := by
  intro l
  induction l with
  | nil => intro _; simp [sortedInsert]
  | cons a as ih =>
    intro hp
    rcases List.pairwise_cons.mp hp with ⟨hfirst, hrest⟩
    rw [sortedInsert]
    by_cases h : le x a = true
    · rw [if_pos h]
      refine List.pairwise_cons.mpr ⟨?_, hp⟩
      intro b hb
      rcases List.mem_cons.mp hb with rfl | hb
      · exact h
      · exact htrans x a b h (hfirst b hb)
    · rw [if_neg h]
      refine List.pairwise_cons.mpr ⟨?_, ih hrest⟩
      intro b hb
      rcases (sortedInsert_mem le x b as).mp hb with heq | hb
      · rw [heq]; exact htot x a (Bool.eq_false_iff.mpr h)
      · exact hfirst b hb

theorem insSort_pairwise {α : Type} (le : α → α → Bool)
    (htot : ∀ a b, le a b = false → le b a = true)
    (htrans : ∀ a b c, le a b = true → le b c = true → le a c = true) :
    ∀ l : List α, (insSort le l).Pairwise (fun a b => le a b = true) := by
  intro l
  induction l with
  | nil => simp [insSort]
  | cons a as ih => exact sortedInsert_pairwise le htot htrans a _ ih

theorem sortedInsert_perm {α : Type} (le : α → α → Bool) (x : α) :
    ∀ l, (sortedInsert le x l).Perm (x :: l) := by
  intro l
  induction l with
  | nil => exact List.Perm.refl _
  | cons y ys ih =>
    rw [sortedInsert]
    by_cases h : le x y = true
    · rw [if_pos h]
    · rw [if_neg h]
      exact (ih.cons y).trans (List.Perm.swap x y ys)

theorem insSort_perm {α : Type} (le : α → α → Bool) :
    ∀ l, (insSort le l).Perm l := by
  intro l
  induction l with
  | nil => exact List.Perm.refl _
  | cons x xs ih =>
    rw [insSort]
    exact (sortedInsert_perm le x (insSort le xs)).trans (ih.cons x)

/-! ### Helper lemmas: `mapE` -/

theorem mapE_ok_mem {α β : Type} (f : α → Except PyErr β) :
    ∀ (l : List α) (out : List β), mapE f l = .ok out →
      ∀ y ∈ out, ∃ x ∈ l, f x = .ok y := by
  intro l
  induction l with
  | nil =>
    intro out h y hy
    rw [mapE] at h
    cases h
    simp at hy
  | cons a as ih =>
    intro out h y hy
    rw [mapE] at h
    cases hfa : f a with
    | error e => rw [hfa] at h; cases h
    | ok b =>
      rw [hfa] at h
      cases hm : mapE f as with
      | error e => rw [hm] at h; cases h
      | ok bs =>
        rw [hm] at h
        cases h
        rcases List.mem_cons.mp hy with rfl | hy'
        · exact ⟨a, List.mem_cons_self a as, hfa⟩
        · rcases ih bs hm y hy' with ⟨x, hx, hfx⟩
          exact ⟨x, List.mem_cons_of_mem a hx, hfx⟩

/-! ### Helper lemmas: the filter stage as one predicate -/

theorem applyIf_eq_filter (b : Bool) (p : Row → Bool) (rows : List Row) :
    applyIf b p rows = rows.filter (fun r => !b || p r) := by
  cases b <;> simp [applyIf]

theorem bool_regroup (a b c d e f : Bool) :
    (f && (e && (d && (c && (b && a))))) = (a && b && c && d && e && f) := by
  cases a <;> cases b <;> cases c <;> cases d <;> cases e <;> cases f <;> rfl

theorem df_filtered_rows (t : Table) (c : Criteria) :
    (df_filtered t c).rows = t.rows.filter (passAll t c) := by
  simp only [df_filtered, applyIf_eq_filter, List.filter_filter]
  congr 1
  funext r
  exact bool_regroup _ _ _ _ _ _

theorem guard_iff {α : Type} (b : Bool) (l : List α) (test : Bool) :
    ((!(b && !l.isEmpty) || test) = true) ↔
      (b = true → l ≠ [] → test = true) := by
  cases b <;> cases l <;> simp

theorem optIsin_iff {α : Type} [DecidableEq α] (v : Option α) (l : List α) :
    optIsin v l = true ↔ ∃ x, v = some x ∧ x ∈ l := by
  cases v <;> simp [optIsin, isin_iff]

theorem has_overlap_iff (sel gl : List Int) :
    has_overlap sel gl = true ↔ ∃ g, g ∈ gl ∧ g ∈ sel := by
  simp [has_overlap, List.any_eq_true, isin_iff]

theorem passAll_iff (t : Table) (c : Criteria) (r : Row) :
    passAll t c r = true ↔
      ((t.hasStatus = true → c.statuses ≠ [] → r.status ∈ c.statuses) ∧
       (t.hasYear = true → c.years ≠ [] →
         ∃ y, r.year = some y ∧ y ∈ c.years) ∧
       (t.hasMonth = true → c.months ≠ [] →
         ∃ m, r.month = some m ∧ m ∈ c.months) ∧
       (t.hasDept = true → c.depts ≠ [] → r.department ∈ c.depts) ∧
       (t.hasPerson = true → c.persons ≠ [] → r.person ∈ c.persons) ∧
       (t.hasGroupList = true → c.groupIds ≠ [] →
         ∃ g, g ∈ r.group_list ∧ g ∈ c.groupIds)) := by
  unfold passAll
  simp only [Bool.and_eq_true, guard_iff, isin_iff, optIsin_iff,
    has_overlap_iff]
  tauto

end Roadmap

namespace Roadmap

/-! ### Helper lemmas: characters and stripping -/

theorem toNat_ne {c d : Char} (h : c.toNat ≠ d.toNat) : c ≠ d :=
  fun e => h (congrArg Char.toNat e)

theorem isAsciiDigit_bounds {c : Char} (h : isAsciiDigit c = true) :
    48 ≤ c.toNat ∧ c.toNat ≤ 57 := by
  simpa [isAsciiDigit] using h

theorem digit_not_spc {c : Char} (h : isAsciiDigit c = true) :
    isSpc c = false := by
  obtain ⟨h1, h2⟩ := isAsciiDigit_bounds h
  have v1 : (' ').toNat = 32 := rfl
  have v2 : ('\t').toNat = 9 := rfl
  have v3 : ('\n').toNat = 10 := rfl
  have v4 : ('\r').toNat = 13 := rfl
  have v5 : ('\x0b').toNat = 11 := rfl
  have v6 : ('\x0c').toNat = 12 := rfl
  have e1 : c ≠ ' ' := toNat_ne (by omega)
  have e2 : c ≠ '\t' := toNat_ne (by omega)
  have e3 : c ≠ '\n' := toNat_ne (by omega)
  have e4 : c ≠ '\r' := toNat_ne (by omega)
  have e5 : c ≠ '\x0b' := toNat_ne (by omega)
  have e6 : c ≠ '\x0c' := toNat_ne (by omega)
  simp [isSpc, e1, e2, e3, e4, e5, e6]

theorem digit_ne_dash {c : Char} (h : isAsciiDigit c = true) : c ≠ '-' := by
  obtain ⟨h1, h2⟩ := isAsciiDigit_bounds h
  have v : ('-').toNat = 45 := rfl
  exact toNat_ne (by omega)

theorem digit_ne_plus {c : Char} (h : isAsciiDigit c = true) : c ≠ '+' := by
  obtain ⟨h1, h2⟩ := isAsciiDigit_bounds h
  have v : ('+').toNat = 43 := rfl
  exact toNat_ne (by omega)

theorem digit_ne_G {c : Char} (h : isAsciiDigit c = true) : c ≠ 'G' := by
  obtain ⟨h1, h2⟩ := isAsciiDigit_bounds h
  have v : ('G').toNat = 71 := rfl
  exact toNat_ne (by omega)

theorem dropWhile_eq_self_of {p : Char → Bool} (l : List Char)
    (h : ∀ c ∈ l, p c = false) : l.dropWhile p = l := by
  cases l with
  | nil => rfl
  | cons a as => simp [List.dropWhile_cons, h a (List.mem_cons_self a as)]

theorem stripChars_eq_self (l : List Char) (h : ∀ c ∈ l, isSpc c = false) :
    stripChars l = l := by
  unfold stripChars
  rw [dropWhile_eq_self_of l h,
    dropWhile_eq_self_of l.reverse (fun c hc => h c (List.mem_reverse.mp hc)),
    List.reverse_reverse]

/-! ### Helper lemmas: decimal digits and the `int(str(n)) = n` round trip -/

theorem digitChar_toNat (d : Nat) (h : d < 10) : (digitChar d).toNat = 48 + d := by
  interval_cases d <;> decide

theorem digitChar_isDigit (d : Nat) (h : d < 10) :
    isAsciiDigit (digitChar d) = true := by
  interval_cases d <;> decide

theorem natToDigitsAux_lt10 :
    ∀ fuel n, ∀ d ∈ natToDigitsAux fuel n, d < 10 := by
  intro fuel
  induction fuel with
  | zero => intro n d hd; simp [natToDigitsAux] at hd
  | succ f ih =>
    intro n d hd
    rw [natToDigitsAux] at hd
    by_cases hn : n = 0
    · simp [hn] at hd
    · rw [if_neg hn] at hd
      rcases List.mem_append.mp hd with h | h
      · exact ih _ _ h
      · have : d = n % 10 := by simpa using h
        rw [this]
        exact Nat.mod_lt n (by norm_num)

theorem digitsValN_append_digit (l : List Nat) (d : Nat) :
    digitsValN (l ++ [d]) = 10 * digitsValN l + d := by
  unfold digitsValN
  rw [List.foldl_append]
  rfl

theorem natToDigitsAux_val :
    ∀ fuel n, n ≤ fuel → digitsValN (natToDigitsAux fuel n) = n := by
  intro fuel
  induction fuel with
  | zero =>
    intro n h
    have : n = 0 := Nat.le_zero.mp h
    subst this
    rfl
  | succ f ih =>
    intro n h
    rw [natToDigitsAux]
    by_cases hn : n = 0
    · subst hn; simp [digitsValN]
    · rw [if_neg hn, digitsValN_append_digit, ih (n / 10) ?_]
      · exact Nat.div_add_mod n 10
      · have : n / 10 < n := Nat.div_lt_self (Nat.pos_of_ne_zero hn) (by norm_num)
        omega

theorem natDigitsBE_val (n : Nat) : digitsValN (natDigitsBE n) = n :=
  natToDigitsAux_val n n le_rfl

theorem natDigitsBE_lt10 (n : Nat) : ∀ d ∈ natDigitsBE n, d < 10 :=
  natToDigitsAux_lt10 n n

theorem natDigitsBE_ne_nil (n : Nat) (h : n ≠ 0) : natDigitsBE n ≠ [] := by
  unfold natDigitsBE
  cases n with
  | zero => exact absurd rfl h
  | succ m =>
    rw [natToDigitsAux, if_neg (Nat.succ_ne_zero m)]
    simp

theorem foldl_map_digitChar :
    ∀ (l : List Nat), (∀ d ∈ l, d < 10) → ∀ a : Nat,
      (l.map digitChar).foldl (fun acc c => 10 * acc + (c.toNat - 48)) a =
        l.foldl (fun acc d => 10 * acc + d) a := by
  intro l
  induction l with
  | nil => intro _ a; rfl
  | cons d ds ih =>
    intro h a
    rw [List.map_cons, List.foldl_cons, List.foldl_cons,
      digitChar_toNat d (h d (List.mem_cons_self d ds))]
    have hd : 48 + d - 48 = d := by omega
    rw [hd]
    exact ih (fun x hx => h x (List.mem_cons_of_mem d hx)) _

theorem natRepr_all_digit (n : Nat) :
    ∀ c ∈ natRepr n, isAsciiDigit c = true := by
  unfold natRepr
  by_cases h : n = 0
  · rw [if_pos h]; intro c hc; simp at hc; rw [hc]; decide
  · rw [if_neg h]
    intro c hc
    rcases List.mem_map.mp hc with ⟨d, hd, rfl⟩
    exact digitChar_isDigit d (natDigitsBE_lt10 n d hd)

theorem natRepr_ne_nil (n : Nat) : natRepr n ≠ [] := by
  unfold natRepr
  by_cases h : n = 0
  · rw [if_pos h]; simp
  · rw [if_neg h]
    simp [natDigitsBE_ne_nil n h]

theorem parseNatDigits_natRepr (n : Nat) :
    parseNatDigits (natRepr n) = some n := by
  unfold parseNatDigits
  rw [if_pos ⟨natRepr_ne_nil n,
    List.all_eq_true.mpr (fun c hc => natRepr_all_digit n c hc)⟩]
  congr 1
  unfold natRepr
  by_cases h : n = 0
  · rw [if_pos h, h]; decide
  · rw [if_neg h]
    unfold digitsVal
    rw [foldl_map_digitChar (natDigitsBE n) (natDigitsBE_lt10 n) 0]
    exact natDigitsBE_val n

theorem pyIntRepr_chars (n : Int) :
    ∀ c ∈ pyIntRepr n, isSpc c = false ∧ c ≠ 'G' := by
  unfold pyIntRepr
  have hdigit : ∀ c ∈ natRepr n.natAbs, isSpc c = false ∧ c ≠ 'G' :=
    fun c hc =>
      ⟨digit_not_spc (natRepr_all_digit _ c hc),
       digit_ne_G (natRepr_all_digit _ c hc)⟩
  by_cases h : n < 0
  · rw [if_pos h]
    intro c hc
    rcases List.mem_cons.mp hc with rfl | hc
    · exact ⟨by decide, by decide⟩
    · exact hdigit c hc
  · rw [if_neg h]
    exact hdigit

theorem stripChars_pyIntRepr (n : Int) :
    stripChars (pyIntRepr n) = pyIntRepr n :=
  stripChars_eq_self _ (fun c hc => (pyIntRepr_chars n c hc).1)

theorem pyParseInt_pyIntRepr (n : Int) : pyParseInt (pyIntRepr n) = some n := by
  unfold pyParseInt
  rw [stripChars_pyIntRepr]
  have hcast : ∀ m : Nat, Int.ofNat m = (m : Int) := fun _ => rfl
  by_cases h : n < 0
  · rw [pyIntRepr, if_pos h]
    simp only [pyParseIntCore, if_true]
    rw [parseNatDigits_natRepr]
    simp only [Option.map_some', Option.some.injEq, hcast]
    omega
  · rw [pyIntRepr, if_neg h]
    obtain ⟨c, rest, hcr⟩ : ∃ c rest, natRepr n.natAbs = c :: rest := by
      cases hnr : natRepr n.natAbs with
      | nil => exact absurd hnr (natRepr_ne_nil _)
      | cons c rest => exact ⟨c, rest, rfl⟩
    have hcd : isAsciiDigit c = true :=
      natRepr_all_digit _ c (hcr ▸ List.mem_cons_self c rest)
    rw [hcr]
    have hd1 : c ≠ '-' := digit_ne_dash hcd
    have hd2 : c ≠ '+' := digit_ne_plus hcd
    simp only [pyParseIntCore, hd1, hd2, if_false, ite_false, if_neg]
    rw [← hcr, parseNatDigits_natRepr]
    simp only [Option.map_some', Option.some.injEq, hcast]
    omega

end Roadmap

namespace Roadmap

/-! ### Helper lemmas: substring containment and `replace` -/

theorem isPrefixOf_append_self : ∀ (p s : List Char), p.isPrefixOf (p ++ s) = true := by
  intro p
  induction p with
  | nil => intro s; cases s <;> rfl
  | cons a as ih => intro s; simp [List.isPrefixOf, ih]

theorem containsSeq_append (p s : List Char) : containsSeq p (p ++ s) = true := by
  unfold containsSeq
  rw [List.any_eq_true]
  exact ⟨p ++ s, (List.mem_tails _ _).mpr List.suffix_rfl,
    isPrefixOf_append_self p s⟩

theorem removeAllAux_no_head (a : Char) (p : List Char) :
    ∀ (s : List Char) (fuel : Nat), (∀ c ∈ s, c ≠ a) → s.length ≤ fuel →
      removeAllAux (a :: p) fuel s = s := by
  intro s
  induction s with
  | nil => intro fuel _ _; cases fuel <;> rfl
  | cons c rest ih =>
    intro fuel hne hlen
    cases fuel with
    | zero => simp at hlen
    | succ f =>
      rw [removeAllAux]
      have hac : ((a : Char) == c) = false :=
        beq_eq_false_iff_ne.mpr
          (fun e => hne c (List.mem_cons_self c rest) e.symm)
      have hbeq : ((a :: p).isPrefixOf (c :: rest)) = false := by
        simp [List.isPrefixOf, hac]
      rw [if_neg (by simp [hbeq])]
      have hlen' : rest.length ≤ f := by
        simp only [List.length_cons] at hlen
        omega
      rw [ih f (fun c' hc' => hne c' (List.mem_cons_of_mem c hc')) hlen']

theorem removeAll_group (s : List Char) (h : ∀ c ∈ s, c ≠ 'G') :
    removeAll groupSpaceS (groupSpaceS ++ s) = s := by
  have hg : groupSpaceS = 'G' :: "roup ".toList := rfl
  unfold removeAll
  rw [List.length_append, show groupSpaceS.length = 6 from rfl,
    show (6 : Nat) + s.length = (5 + s.length) + 1 from by omega]
  rw [hg, List.cons_append, removeAllAux]
  rw [if_pos ⟨by simp, by
    rw [← List.cons_append, ← hg]
    exact isPrefixOf_append_self groupSpaceS s⟩]
  rw [show ('G' :: "roup ".toList).length = 6 from rfl]
  rw [show ('G' :: ("roup ".toList ++ s)).drop 6 = s from by
    rw [← List.cons_append, ← hg, ← show groupSpaceS.length = 6 from rfl]
    exact List.drop_left groupSpaceS s]
  exact removeAllAux_no_head 'G' ("roup ".toList) s (5 + s.length) h
    (by omega)

/-! ### Helper lemmas: the status cleanup -/

theorem loadStatus_ne_nan (raw : Option (List Char)) :
    loadStatus raw ≠ nanS := by
  unfold loadStatus
  by_cases h : stripChars (raw.getD ongoingS) = nanS
  · rw [if_pos h]; decide
  · rw [if_neg h]; exact h

theorem loadStatus_some_ne_nil (s : List Char) (h : stripChars s ≠ []) :
    loadStatus (some s) ≠ [] := by
  unfold loadStatus
  simp only [Option.getD_some]
  by_cases hn : stripChars s = nanS
  · rw [if_pos hn]; decide
  · rw [if_neg hn]; exact h

theorem loadStatus_none_ne_nil : loadStatus none ≠ [] := by decide

/-! ### Helper lemmas: sums -/

theorem foldl_add_eq (l : List Rat) :
    ∀ a : Rat, l.foldl (fun x y => x + y) a = a + l.sum := by
  induction l with
  | nil => intro a; simp
  | cons x xs ih => intro a; rw [List.foldl_cons, ih, List.sum_cons]; ring

theorem sumTimes_eq (rows : List Row) :
    sumTimes rows = (rows.filterMap Row.time).sum := by
  unfold sumTimes
  rw [foldl_add_eq]
  exact zero_add _

/-! ### Helper lemmas: the label→id translation -/

theorem sgi_mem (x : Int) : ∀ ns : List (List Char),
    x ∈ selected_group_ids ns ↔ ∃ n ∈ ns, x ∈ idsOfName n := by
  intro ns
  induction ns with
  | nil => simp [selected_group_ids]
  | cons a as ih =>
    rw [selected_group_ids, List.mem_append, ih]
    constructor
    · rintro (h | ⟨n, hn, hx⟩)
      · exact ⟨a, List.mem_cons_self a as, h⟩
      · exact ⟨n, List.mem_cons_of_mem a hn, hx⟩
    · rintro ⟨n, hn, hx⟩
      rcases List.mem_cons.mp hn with rfl | hn
      · exact Or.inl hx
      · exact Or.inr ⟨n, hn, hx⟩

theorem ne_of_headD {l1 l2 : List Char} (h : l1.headD ' ' ≠ l2.headD ' ') :
    l1 ≠ l2 := fun e => h (by rw [e])

theorem lookup_GROUP_MAPPING_none (g : Int) (h0 : g ≠ 0) (h1 : g ≠ 1)
    (h2 : g ≠ 2) (h3 : g ≠ 3) (h4 : g ≠ 4) :
    GROUP_MAPPING.lookup g = none := by
  have b0 : (g == (0 : Int)) = false := beq_eq_false_iff_ne.mpr h0
  have b1 : (g == (1 : Int)) = false := beq_eq_false_iff_ne.mpr h1
  have b2 : (g == (2 : Int)) = false := beq_eq_false_iff_ne.mpr h2
  have b3 : (g == (3 : Int)) = false := beq_eq_false_iff_ne.mpr h3
  have b4 : (g == (4 : Int)) = false := beq_eq_false_iff_ne.mpr h4
  simp [GROUP_MAPPING, List.lookup, b0, b1, b2, b3, b4]

theorem mappingGet_generic (g : Int) (h0 : g ≠ 0) (h1 : g ≠ 1) (h2 : g ≠ 2)
    (h3 : g ≠ 3) (h4 : g ≠ 4) :
    mappingGet g = groupSpaceS ++ pyIntRepr g := by
  unfold mappingGet
  rw [lookup_GROUP_MAPPING_none g h0 h1 h2 h3 h4]

theorem idsOfName_generic (g : Int) :
    idsOfName (groupSpaceS ++ pyIntRepr g) = [g] := by
  unfold idsOfName
  have hfil : GROUP_MAPPING.filter
      (fun p => decide (p.2 = groupSpaceS ++ pyIntRepr g)) = [] := by
    apply List.filter_eq_nil_iff.mpr
    intro p hp
    simp only [decide_eq_true_eq]
    fin_cases hp <;>
      (apply ne_of_headD;
       rw [show (groupSpaceS ++ pyIntRepr g).headD ' ' = 'G' from rfl];
       decide)
  rw [hfil]
  rw [if_pos (containsSeq_append groupSpaceS (pyIntRepr g))]
  rw [removeAll_group _ (fun c hc => (pyIntRepr_chars g c hc).2)]
  rw [pyParseInt_pyIntRepr]
  rfl

theorem idsOfName_mappingGet (g : Int) : idsOfName (mappingGet g) = [g] := by
  by_cases h0 : g = 0
  · subst h0; decide
  by_cases h1 : g = 1
  · subst h1; decide
  by_cases h2 : g = 2
  · subst h2; decide
  by_cases h3 : g = 3
  · subst h3; decide
  by_cases h4 : g = 4
  · subst h4; decide
  rw [mappingGet_generic g h0 h1 h2 h3 h4]
  exact idsOfName_generic g

theorem isKnownLabel_complete (g : Int) : isKnownLabel (mappingGet g) = true := by
  by_cases h0 : g = 0
  · subst h0; decide
  by_cases h1 : g = 1
  · subst h1; decide
  by_cases h2 : g = 2
  · subst h2; decide
  by_cases h3 : g = 3
  · subst h3; decide
  by_cases h4 : g = 4
  · subst h4; decide
  have hgen := mappingGet_generic g h0 h1 h2 h3 h4
  have hparse : pyParseInt (removeAll groupSpaceS (mappingGet g)) = some g := by
    rw [hgen, removeAll_group _ (fun c hc => (pyIntRepr_chars g c hc).2)]
    exact pyParseInt_pyIntRepr g
  unfold isKnownLabel
  rw [hparse]
  simp

theorem isKnownLabel_sound (name : List Char)
    (h : isKnownLabel name = true) : ∃ g : Int, mappingGet g = name := by
  unfold isKnownLabel at h
  rw [Bool.or_eq_true] at h
  rcases h with h1 | h2
  · have hmem := (isin_iff _ _).mp h1
    rcases List.mem_map.mp hmem with ⟨p, hp, rfl⟩
    fin_cases hp
    · exact ⟨0, by decide⟩
    · exact ⟨1, by decide⟩
    · exact ⟨2, by decide⟩
    · exact ⟨3, by decide⟩
    · exact ⟨4, by decide⟩
  · cases hp : pyParseInt (removeAll groupSpaceS name) with
    | none => rw [hp] at h2; simp at h2
    | some n =>
      rw [hp] at h2
      simp only [decide_eq_true_eq] at h2
      exact ⟨n, h2.symm⟩

end Roadmap

namespace Roadmap

/-! ### Helper lemma: rows of a successfully loaded table -/

theorem load_data_rows (rt : RawTable) (t : Table)
    (h : load_data rt = .ok t) :
    ∀ r ∈ t.rows, ∃ rr ∈ rt.rows, ∃ gl, r = loadRowPure rt rr gl := by
  unfold load_data at h
  split at h
  · exact absurd h (by simp)
  · rename_i rows heq
    split at h
    · exact absurd h (by simp)
    · cases h
      intro r hr
      rcases mapE_ok_mem _ rt.rows rows heq r hr with ⟨rr, hrr, hf⟩
      by_cases hgr : rt.hasGroup = true
      · rw [if_pos hgr] at hf
        cases hpg : parseGroupList rr.group with
        | error e => rw [hpg] at hf; cases hf
        | ok gl =>
          rw [hpg] at hf
          cases hf
          exact ⟨rr, hrr, gl, rfl⟩
      · rw [if_neg hgr] at hf
        cases hf
        exact ⟨rr, hrr, [], rfl⟩

/-! ### Claim theorems -/

/-- C2: the spec says a table without a `group` column loads with an empty
`group_list` for every record.  The code runs `df["group_list"] = []`,
which pandas rejects with a length-mismatch `ValueError` on every
non-empty frame, so such a load aborts; only the empty frame loads (and
then indeed carries an empty `group_list` column). -/
theorem roadmap_C2_eval :
    load_data rawC2 = .error .valueErrorLength ∧
    load_data rawC2e = .ok tC2e := by
  decide

/-- C3: deriving `group_list` drops malformed tokens without raising, and
`"1;2.0;x"` yields `[1, 2]` — but only because the guard removes *all*
dots before `isdigit`; a token with two dots such as `"1.2.3"` passes the
guard and then `int(float("1.2.3"))` raises `ValueError`, aborting the
load. -/
theorem roadmap_C3_eval :
    parseGroupList (some gOkS) = .ok [1, 2] ∧
    parseGroupList (some gBadS) = .error .valueErrorFloat ∧
    load_data rawC3 = .error .valueErrorFloat := by
  decide

/-- C4: a record is in the filtered result iff it is in the input table and
satisfies every active dimension criterion simultaneously (logical AND
across status, year, month, department, person and group), the group
criterion being a non-empty intersection between `group_list` and the
selected ids (OR over ids); and the `group = "0;3"` record is included for
`groupIds = {3}` and excluded for `groupIds = {1, 2}`. -/
theorem roadmap_C4 :
    (∀ (t : Table) (c : Criteria) (r : Row),
      r ∈ (df_filtered t c).rows ↔
        (r ∈ t.rows ∧
         (t.hasStatus = true → c.statuses ≠ [] → r.status ∈ c.statuses) ∧
         (t.hasYear = true → c.years ≠ [] →
           ∃ y, r.year = some y ∧ y ∈ c.years) ∧
         (t.hasMonth = true → c.months ≠ [] →
           ∃ m, r.month = some m ∧ m ∈ c.months) ∧
         (t.hasDept = true → c.depts ≠ [] → r.department ∈ c.depts) ∧
         (t.hasPerson = true → c.persons ≠ [] → r.person ∈ c.persons) ∧
         (t.hasGroupList = true → c.groupIds ≠ [] →
           ∃ g, g ∈ r.group_list ∧ g ∈ c.groupIds))) ∧
    parseGroupList (some grC4) = .ok [0, 3] ∧
    row4 ∈ (df_filtered t4 c4incl).rows ∧
    row4 ∉ (df_filtered t4 c4excl).rows := by
  refine ⟨?_, by decide, by decide, by decide⟩
  intro t c r
  rw [df_filtered_rows, List.mem_filter, passAll_iff]

/-- C8: after filtering, `count` is exactly the number of records of the
input table passing the combined criteria and `totalTime` is the sum of
the `time` field over exactly the filtered rows; in the scenario with
departments `["A", "B", "A"]`, time `[10, 5, 7]` and the departments
filter `{"A"}`, the count is 2, the total is 17 and `byDepartment` is
`{"A": 17}`. -/
theorem roadmap_C8 :
    (∀ (t : Table) (c : Criteria),
      (df_filtered t c).rows.length = t.rows.countP (passAll t c) ∧
      total_hours (df_filtered t c) =
        ((t.rows.filter (passAll t c)).filterMap Row.time).sum) ∧
    (df_filtered t8 crit8).rows.length = 2 ∧
    total_hours (df_filtered t8 crit8) = 17 ∧
    df_dept (df_filtered t8 crit8) = [("A".toList, 17)] := by
  have hrows : (df_filtered t8 crit8).rows = [r8a, r8c] := by decide
  have hsum : sumTimes [r8a, r8c] = 17 := by
    norm_num [sumTimes, r8a, r8c, List.filterMap_cons, List.filterMap_nil,
      List.foldl_cons, List.foldl_nil]
  refine ⟨?_, ?_, ?_, ?_⟩
  · intro t c
    constructor
    · rw [df_filtered_rows, List.countP_eq_length_filter]
    · unfold total_hours
      rw [df_filtered_rows, sumTimes_eq]
  · rw [hrows]; rfl
  · unfold total_hours
    rw [hrows, hsum]
  · unfold df_dept
    rw [hrows]
    rw [show insSort lexLE (dedupFirst (List.map Row.department [r8a, r8c])) =
      ["A".toList] from by decide]
    simp only [List.map_cons, List.map_nil]
    rw [show List.filter (fun r => decide (r.department = "A".toList))
      [r8a, r8c] = [r8a, r8c] from by decide]
    rw [hsum]

/-- C9: whenever the filtered table is empty, `avg_hours` is the guarded
value 0, not the undefined pandas mean (`NaN`, modelled as `none`). -/
theorem roadmap_C9 (t : Table) (c : Criteria)
    (h : (df_filtered t c).rows = []) :
    avg_hours (df_filtered t c) = some 0 := by
  unfold avg_hours
  rw [h]
  rfl

/-- Witness for C9 at a concrete table and criteria that filter out
everything. -/
theorem roadmap_C9_witness : avg_hours (df_filtered t9 c9) = some 0 :=
  roadmap_C9 t9 c9 (by decide)

/-- C10: a record with an empty `group_list` is excluded whenever the
selected group-id set is non-empty — including under the default criteria,
where all available group labels are pre-selected (the overlap test over
an empty sequence is always false). -/
theorem roadmap_C10 :
    (∀ (t : Table) (c : Criteria) (r : Row),
      t.hasGroupList = true → c.groupIds ≠ [] → r.group_list = [] →
        r ∉ (df_filtered t c).rows) ∧
    ((defaultCriteria t10).groupIds ≠ [] ∧
     r10b ∈ t10.rows ∧
     r10b ∉ (df_filtered t10 (defaultCriteria t10)).rows) := by
  refine ⟨?_, by decide⟩
  intro t c r hG hne hgl hmem
  rw [df_filtered_rows, List.mem_filter, passAll_iff] at hmem
  obtain ⟨-, -, -, -, -, -, hgrp⟩ := hmem
  rcases hgrp hG hne with ⟨g, hg1, -⟩
  rw [hgl] at hg1
  simp at hg1

/-- Witness for C10's general part at a concrete table, criteria and
record. -/
theorem roadmap_C10_witness :
    r10b ∉ (df_filtered t10 c4incl).rows :=
  roadmap_C10.1 t10 c4incl r10b rfl (by decide) rfl

end Roadmap

namespace Roadmap

/-- C1 (amended): the filter stage with the default criteria returns the
table unchanged, provided every record has a non-null `Year` and `Month`
(when those columns exist) and — when the group dimension is active — a
non-empty `group_list`; the original claim fails on records with null
`Year`/`Month` or empty `group_list`, because the option lists are built
with `dropna()` and an empty `group_list` never overlaps the selection. -/
theorem roadmap_C1_amended (t : Table)
    (hrows : ∀ r ∈ t.rows,
      (t.hasYear = true → r.year ≠ none) ∧
      (t.hasMonth = true → r.month ≠ none) ∧
      (t.hasGroupList = true → selected_group_ids (group_options t) ≠ [] →
        r.group_list ≠ [])) :
    (df_filtered t (defaultCriteria t)).rows = t.rows := by
  rw [df_filtered_rows]
  apply List.filter_eq_self.mpr
  intro r hr
  rw [passAll_iff]
  obtain ⟨hy, hm, hg⟩ := hrows r hr
  refine ⟨?_, ?_, ?_, ?_, ?_, ?_⟩
  · intro hs _
    show r.status ∈ (defaultCriteria t).statuses
    simp only [defaultCriteria]
    rw [if_pos hs]
    exact (dedupFirst_mem _ _).mpr (List.mem_map_of_mem Row.status hr)
  · intro hYear _
    cases hy' : r.year with
    | none => exact absurd hy' (hy hYear)
    | some y =>
      refine ⟨y, rfl, ?_⟩
      show y ∈ (defaultCriteria t).years
      simp only [defaultCriteria]
      rw [if_pos hYear]
      unfold selected_years_default
      rw [insSort_mem, dedupFirst_mem]
      exact List.mem_filterMap.mpr ⟨r, hr, by rw [hy']⟩
  · intro hMonth _
    cases hm' : r.month with
    | none => exact absurd hm' (hm hMonth)
    | some m =>
      refine ⟨m, rfl, ?_⟩
      show m ∈ (defaultCriteria t).months
      simp only [defaultCriteria]
      rw [if_pos hMonth]
      unfold selected_months_default
      rw [dedupFirst_mem]
      exact List.mem_filterMap.mpr
        ⟨r, (insSort_mem monthNumLE r t.rows).mpr hr, by rw [hm']⟩
  · intro hDept _
    show r.department ∈ (defaultCriteria t).depts
    simp only [defaultCriteria]
    rw [if_pos hDept]
    exact (dedupFirst_mem _ _).mpr (List.mem_map_of_mem Row.department hr)
  · intro hPers _
    show r.person ∈ (defaultCriteria t).persons
    simp only [defaultCriteria]
    rw [if_pos hPers]
    exact (dedupFirst_mem _ _).mpr (List.mem_map_of_mem Row.person hr)
  · intro hG hne
    simp only [defaultCriteria] at hne ⊢
    rw [if_pos hG] at hne ⊢
    have hgl : r.group_list ≠ [] := hg hG hne
    obtain ⟨g, hgmem⟩ := List.exists_mem_of_ne_nil r.group_list hgl
    refine ⟨g, hgmem, ?_⟩
    rw [sgi_mem]
    refine ⟨mappingGet g, ?_, ?_⟩
    · unfold group_options
      apply List.mem_map_of_mem mappingGet
      unfold sorted_all_ids
      rw [insSort_mem, dedupFirst_mem]
      exact List.mem_flatten.mpr
        ⟨r.group_list, List.mem_map_of_mem Row.group_list hr, hgmem⟩
    · rw [idsOfName_mappingGet]
      exact List.mem_singleton.mpr rfl

/-- C1 (counterexample): a loaded two-record table, one record with a null
start date; the default criteria drop the null-`Year` record, so the
filtered table has 1 row, not 2. -/
theorem roadmap_C1_cex :
    load_data rawC1 = .ok tC1 ∧
    tC1.rows.length = 2 ∧
    (df_filtered tC1 (defaultCriteria tC1)).rows.length = 1 ∧
    (df_filtered tC1 (defaultCriteria tC1)).rows.length ≠ tC1.rows.length := by
  decide

/-- Witness for C1 (amended) at a fully populated one-record table. -/
theorem roadmap_C1_witness :
    (df_filtered tW (defaultCriteria tW)).rows = tW.rows :=
  roadmap_C1_amended tW (by decide)

/-- C5 (amended): after loading, `status` is never the literal `"nan"`
(whole-cell `"nan"` is remapped to `"Ongoing"` after stripping), and it is
non-empty provided no raw status cell strips to the empty string; both
properties persist in every filtered table.  The original claim fails on a
whitespace-only status cell, which strips to `""` and is not remapped. -/
theorem roadmap_C5_amended :
    (∀ (rt : RawTable) (t : Table) (c : Criteria),
      load_data rt = .ok t → rt.hasStatus = true →
      ∀ r ∈ (df_filtered t c).rows, r.status ≠ nanS) ∧
    (∀ (rt : RawTable) (t : Table) (c : Criteria),
      load_data rt = .ok t → rt.hasStatus = true →
      (∀ rr ∈ rt.rows, stripChars (rr.status.getD ongoingS) ≠ []) →
      ∀ r ∈ (df_filtered t c).rows, r.status ≠ []) := by
  constructor
  · intro rt t c hload hs r hrf
    have hr : r ∈ t.rows := by
      rw [df_filtered_rows] at hrf
      exact (List.mem_filter.mp hrf).1
    obtain ⟨rr, -, gl, rfl⟩ := load_data_rows rt t hload r hr
    show (loadRowPure rt rr gl).status ≠ nanS
    simp only [loadRowPure]
    rw [if_pos hs]
    exact loadStatus_ne_nan rr.status
  · intro rt t c hload hs hstrip r hrf
    have hr : r ∈ t.rows := by
      rw [df_filtered_rows] at hrf
      exact (List.mem_filter.mp hrf).1
    obtain ⟨rr, hrrmem, gl, rfl⟩ := load_data_rows rt t hload r hr
    show (loadRowPure rt rr gl).status ≠ []
    simp only [loadRowPure]
    rw [if_pos hs]
    cases hrr : rr.status with
    | none => exact loadStatus_none_ne_nil
    | some s =>
      apply loadStatus_some_ne_nil
      have := hstrip rr hrrmem
      rw [hrr] at this
      exact this

/-- C5 (counterexample): a whitespace-only status cell loads as the empty
string, contradicting "never empty". -/
theorem roadmap_C5_cex :
    load_data rawC5 = .ok tC5 ∧ rC5 ∈ tC5.rows ∧ rC5.status = [] := by
  decide

/-- Witness for C5 (amended) at a one-record table whose status cell
strips to a non-empty string. -/
theorem roadmap_C5_witness : rC5w.status ≠ nanS ∧ rC5w.status ≠ [] :=
  ⟨roadmap_C5_amended.1 rawC5w tC5w emptyCriteria (by decide) rfl rC5w
    (by decide),
   roadmap_C5_amended.2 rawC5w tC5w emptyCriteria (by decide) rfl
    (by decide) rC5w (by decide)⟩

/-- C6 (amended): for *every* outcome the unstable `quicksort` argsort may
produce (the descending sort reverses some ascending-sorted permutation of
the groupby result), the result maps each (person, department) pair
present in the table to the sum of its `time` values and is sorted
descending by summed time; the tie order is left open by that contract —
in particular it is not the input order — and the executable `df_person`,
which instantiates the argsort with the stable pass NumPy uses below its
insertion-sort cutoff, is one admissible outcome. -/
theorem roadmap_C6_amended :
    (∀ (t : Table) (out : List ((List Char × List Char) × Rat)),
      sortValuesDescOutcome (groupPersonDept t) out →
        out.Pairwise (fun a b => b.2 ≤ a.2)) ∧
    (∀ (t : Table) (out : List ((List Char × List Char) × Rat))
        (k : List Char × List Char) (s : Rat),
      sortValuesDescOutcome (groupPersonDept t) out →
        ((k, s) ∈ out ↔
          ((∃ r ∈ t.rows, (r.person, r.department) = k) ∧
           s = sumTimes (t.rows.filter
             (fun r => decide ((r.person, r.department) = k)))))) ∧
    (∀ t : Table, sortValuesDescOutcome (groupPersonDept t) (df_person t)) := by
  have htot : ∀ a b : (List Char × List Char) × Rat,
      timeLE a b = false → timeLE b a = true := by
    intro a b h
    simp only [timeLE, decide_eq_false_iff_not] at h
    simp only [timeLE, decide_eq_true_eq]
    exact le_of_not_le h
  have htrans : ∀ a b c : (List Char × List Char) × Rat,
      timeLE a b = true → timeLE b c = true → timeLE a c = true := by
    intro a b c h1 h2
    simp only [timeLE, decide_eq_true_eq] at h1 h2 ⊢
    exact le_trans h1 h2
  refine ⟨?_, ?_, ?_⟩
  · rintro t out ⟨asc, hperm, hsort, rfl⟩
    rw [List.pairwise_reverse]
    exact hsort
  · rintro t out k s ⟨asc, hperm, hsort, rfl⟩
    rw [List.mem_reverse, hperm.mem_iff]
    unfold groupPersonDept
    rw [List.mem_map]
    constructor
    · rintro ⟨k', hk', heq⟩
      rw [Prod.ext_iff] at heq
      obtain ⟨hk, hs⟩ := heq
      simp only at hk hs
      subst hk
      refine ⟨?_, hs.symm⟩
      rw [insSort_mem, dedupFirst_mem, List.mem_map] at hk'
      exact hk'
    · rintro ⟨⟨r, hr, hkey⟩, rfl⟩
      refine ⟨k, ?_, rfl⟩
      rw [insSort_mem, dedupFirst_mem, List.mem_map]
      exact ⟨r, hr, hkey⟩
  · intro t
    refine ⟨insSort timeLE (groupPersonDept t),
      insSort_perm timeLE (groupPersonDept t), ?_, rfl⟩
    exact (insSort_pairwise timeLE htot htrans (groupPersonDept t)).imp
      (fun h => by simpa [timeLE] using h)

/-- C6 (counterexample): two persons `A`, `B` (input order `A` first) in
one department with equal summed time 5; on a two-element frame — well
inside NumPy's insertion-sort regime, where the ascending argsort is
stable — pandas reverses the ascending order, so the program lists `B`
first: ties are not broken by input order. -/
theorem roadmap_C6_cex :
    df_person t6 =
      [(("B".toList, "D".toList), 5), (("A".toList, "D".toList), 5)] ∧
    t6.rows.map (fun r => (r.person, r.department)) =
      [("A".toList, "D".toList), ("B".toList, "D".toList)] ∧
    [(("B".toList, "D".toList), (5 : Rat)), (("A".toList, "D".toList), 5)] ≠
      [(("A".toList, "D".toList), 5), (("B".toList, "D".toList), 5)] := by
  have hfA : t6.rows.filter
      (fun r => decide ((r.person, r.department) =
        ("A".toList, "D".toList))) = [rowA] := by decide
  have hfB : t6.rows.filter
      (fun r => decide ((r.person, r.department) =
        ("B".toList, "D".toList))) = [rowB] := by decide
  have hsA : sumTimes [rowA] = 5 := by
    norm_num [sumTimes, rowA, List.filterMap_cons, List.filterMap_nil,
      List.foldl_cons, List.foldl_nil]
  have hsB : sumTimes [rowB] = 5 := by
    norm_num [sumTimes, rowB, rowA, List.filterMap_cons, List.filterMap_nil,
      List.foldl_cons, List.foldl_nil]
  refine ⟨?_, by decide, by decide⟩
  unfold df_person groupPersonDept
  rw [show insSort pairLE
      (dedupFirst (t6.rows.map (fun r => (r.person, r.department)))) =
      [("A".toList, "D".toList), ("B".toList, "D".toList)] from by decide]
  simp only [List.map_cons, List.map_nil]
  rw [hfA, hfB, hsA, hsB]
  decide

/-- C7 (amended): the label→id translation is pure and order-independent
as a set; the label of any id round-trips to exactly that id (both the
five fixed labels and the generic `"Group N"` labels); and a selected
label matching no known id contributes nothing — whether it lacks the
substring `"Group "` (so even `"42"`, which `int()` would parse, is
ignored) or contains it with an unparseable remainder — *unless* it
contains `"Group "` and removing every occurrence of `"Group "` leaves a
string `int()` parses, in which case exactly that integer is contributed:
`"Group  9"` (two spaces) matches no known id yet contributes 9. -/
theorem roadmap_C7_amended :
    (∀ (ns ns' : List (List Char)), ns.Perm ns' →
      ∀ x, x ∈ selected_group_ids ns ↔ x ∈ selected_group_ids ns') ∧
    (∀ gid : Int, selected_group_ids [mappingGet gid] = [gid]) ∧
    (∀ name : List Char, containsSeq groupSpaceS name = false →
      (∀ p ∈ GROUP_MAPPING, p.2 ≠ name) →
      selected_group_ids [name] = []) ∧
    (∀ name : List Char, pyParseInt (removeAll groupSpaceS name) = none →
      (∀ p ∈ GROUP_MAPPING, p.2 ≠ name) →
      selected_group_ids [name] = []) ∧
    (∀ (name : List Char) (n : Int),
      (∀ p ∈ GROUP_MAPPING, p.2 ≠ name) →
      containsSeq groupSpaceS name = true →
      pyParseInt (removeAll groupSpaceS name) = some n →
      selected_group_ids [name] = [n]) := by
  have hfil : ∀ name : List Char, (∀ p ∈ GROUP_MAPPING, p.2 ≠ name) →
      GROUP_MAPPING.filter (fun p => decide (p.2 = name)) = [] := by
    intro name hlab
    apply List.filter_eq_nil_iff.mpr
    intro p hp
    simp only [decide_eq_true_eq]
    exact hlab p hp
  refine ⟨?_, ?_, ?_, ?_, ?_⟩
  · intro ns ns' hperm x
    rw [sgi_mem, sgi_mem]
    constructor
    · rintro ⟨n, hn, hx⟩; exact ⟨n, hperm.mem_iff.mp hn, hx⟩
    · rintro ⟨n, hn, hx⟩; exact ⟨n, hperm.mem_iff.mpr hn, hx⟩
  · intro gid
    simp only [selected_group_ids, List.append_nil]
    exact idsOfName_mappingGet gid
  · intro name hcont hlab
    simp only [selected_group_ids, List.append_nil]
    unfold idsOfName
    rw [hfil name hlab, if_neg (by simp [hcont])]
    rfl
  · intro name hparse hlab
    simp only [selected_group_ids, List.append_nil]
    unfold idsOfName
    rw [hfil name hlab]
    by_cases hc : containsSeq groupSpaceS name = true
    · rw [if_pos hc, hparse]
      rfl
    · rw [if_neg hc]
      rfl
  · intro name n hlab hc hparse
    simp only [selected_group_ids, List.append_nil]
    unfold idsOfName
    rw [hfil name hlab, if_pos hc, hparse]
    rfl

/-- C7 (counterexample): `"Group  9"` (double space) is not the label of
any id — `isKnownLabel` decides membership in the image of the labelling,
see `isKnownLabel_sound` / `isKnownLabel_complete` — yet the translation
contributes the id 9 for it instead of ignoring it. -/
theorem roadmap_C7_cex :
    isKnownLabel weirdLabel = false ∧
    selected_group_ids [weirdLabel] = [9] := by
  decide

/-- Witness for C7 (amended), part 3, at the unknown label `"bogus"`. -/
theorem roadmap_C7_witness : selected_group_ids [("bogus".toList)] = [] :=
  roadmap_C7_amended.2.2.1 ("bogus".toList) (by decide) (by decide)

end Roadmap

namespace Roadmap

/-- Witness for C4's characterisation at a concrete table, criteria and
record. -/
theorem roadmap_C4_witness : row4 ∈ (df_filtered t4 c4incl).rows :=
  (roadmap_C4.1 t4 c4incl row4).mpr
    ⟨by decide,
     fun h _ => absurd h (by decide),
     fun h _ => absurd h (by decide),
     fun h _ => absurd h (by decide),
     fun h _ => absurd h (by decide),
     fun h _ => absurd h (by decide),
     fun _ _ => ⟨3, by decide, by decide⟩⟩

/-- Witness for C6's membership characterisation at a concrete table and
aggregation entry. -/
theorem roadmap_C6_witness :
    (("A".toList, "D".toList), (5 : Rat)) ∈ df_person t6 := by
  apply (roadmap_C6_amended.2.1 t6 (df_person t6) ("A".toList, "D".toList) 5
    (roadmap_C6_amended.2.2 t6)).mpr
  refine ⟨⟨rowA, by decide, by decide⟩, ?_⟩
  rw [show t6.rows.filter
      (fun r => decide ((r.person, r.department) =
        ("A".toList, "D".toList))) = [rowA] from by decide]
  norm_num [sumTimes, rowA, List.filterMap_cons, List.filterMap_nil,
    List.foldl_cons, List.foldl_nil]

end Roadmap
